import Mathlib

/-!
Verification of the confetti particle subsystem.

A shallow embedding of the particle animation subsystem of
`src/unnamed/part_006` (the `useConfetti` React hook): the particle record,
the per-frame driver step `animate`, the emission entry point `fire`, and the
canvas-creating mount effect.  JavaScript numbers are modelled as rationals
(`ℚ`); none of the verified properties depends on floating-point rounding.
The per-particle calls to `Math.random()` (and the `sin`/`cos` expressions
applied to the random angle) are modelled as oracle inputs supplied to the
spawn function, since no verified property depends on their distribution.
-/

set_option autoImplicit false

namespace Confetti

/-- JavaScript's `%` on numbers, restricted to the non-negative operands the
code feeds it (`particle.hue + 2 ≥ 0` and `360 > 0`), where the truncating
remainder coincides with the flooring one. -/
def jsMod (a b : ℚ) : ℚ := a - b * ⌊a / b⌋

/-- The `Particle` record of `src/unnamed/part_006`, lines 67-82.  All
numeric fields are JavaScript numbers, modelled as `ℚ`; `shape` is the index
drawn into the shape palette. -/
structure Particle where
  x : ℚ
  y : ℚ
  vx : ℚ
  vy : ℚ
  rotation : ℚ
  rotationSpeed : ℚ
  scale : ℚ
  shape : ℕ
  hue : ℚ
  saturation : ℚ
  lightness : ℚ
  alpha : ℚ
  life : ℚ
  maxLife : ℚ
deriving DecidableEq, Repr

/-- The `ConfettiOptions` value consumed by `fire` (lines 208-218), with the
defaults applied by its destructuring.  `origin` is split into its two
coordinates.  `gravity` is declared in the interface but the destructuring of
it is commented out in the source; the field is kept here to state that
`fire` ignores it. -/
structure ConfettiOptions where
  particleCount : ℕ := 150
  duration : ℚ := 4000
  spread : ℚ := 60
  startVelocity : ℚ := 30
  gravity : ℚ := 3/10
  iridescent : Bool := true
  originX : ℚ := 1/2
  originY : ℚ := 1/2
  shapesLen : ℕ := 3
deriving Repr

/-- The random draws consumed while spawning one particle (lines 236-247).
Each field holds the already-evaluated random expression: `vx` stands for
`Math.sin(angle) * velocity`, `vy` for `-Math.cos(angle) * velocity`,
`rotation` for `Math.random() * Math.PI * 2`, `rotationSpeed` for
`(Math.random() - 0.5) * 0.2`, `scale` for `Math.random() * 0.5 + 0.75`,
`shape` for `Math.floor(Math.random() * shapes.length)`, and `hueDraw` for
`Math.random() * 360`.  They are oracle inputs: no claim depends on their
values, only on the deterministic fields of the spawned particle. -/
structure SpawnRand where
  vx : ℚ := 0
  vy : ℚ := 0
  rotation : ℚ := 0
  rotationSpeed : ℚ := 0
  scale : ℚ := 1
  shape : ℕ := 0
  hueDraw : ℚ := 0
deriving Repr

/-- Construction of one particle inside the `fire` loop
(lines 239-254).  Deterministic fields: position is the origin scaled to the
canvas, `alpha = 1`, `life = 0`, `maxLife = duration / 16.67` (16.67 = 1667/100),
and the colour fields depend only on the `iridescent` flag. -/
def spawnParticle (opts : ConfettiOptions) (centerX centerY : ℚ) (r : SpawnRand) :
    Particle where
  x := centerX
  y := centerY
  vx := r.vx
  vy := r.vy
  rotation := r.rotation
  rotationSpeed := r.rotationSpeed
  scale := r.scale
  shape := r.shape
  hue := if opts.iridescent then r.hueDraw else 0
  saturation := if opts.iridescent then 100 else 0
  lightness := if opts.iridescent then 60 else 50
  alpha := 1
  life := 0
  maxLife := opts.duration / (1667/100)

/-- The per-particle physics and colour update performed by the `filter`
callback of `animate` (lines 146-158), before the removal test: `vy += 0.3`
(hard-coded gravity), `x += vx`, `y += vy` with the already-updated `vy`,
`rotation += rotationSpeed`, `life += 1`; then, only while `life < maxLife`
(with the incremented `life`), `hue = (hue + 2) % 360` and
`alpha = max(0, 1 - life / maxLife)`. -/
def stepParticle (p : Particle) : Particle :=
  if p.life + 1 < p.maxLife then
    { p with
      vy := p.vy + 3/10
      x := p.x + p.vx
      y := p.y + (p.vy + 3/10)
      rotation := p.rotation + p.rotationSpeed
      life := p.life + 1
      hue := jsMod (p.hue + 2) 360
      alpha := max 0 (1 - (p.life + 1) / p.maxLife) }
  else
    { p with
      vy := p.vy + 3/10
      x := p.x + p.vx
      y := p.y + (p.vy + 3/10)
      rotation := p.rotation + p.rotationSpeed
      life := p.life + 1 }

/-- The removal test of `animate` (line 161): a particle is dropped when
`y > canvas.height + 100` or `alpha <= 0`, after its update. -/
def expired (height : ℚ) (p : Particle) : Bool :=
  decide (p.y > height + 100) || decide (p.alpha ≤ 0)

/-- One pass of the pool update of `animate` (lines 145-196): every particle
is updated in place, then kept exactly when the removal test fails.  Drawing
has no effect on the state and is omitted. -/
def stepPool (height : ℚ) (pool : List Particle) : List Particle :=
  (pool.map stepParticle).filter fun p => !expired height p

/-- The canvas element created by the mount effect, reduced to its
dimensions (`window.innerWidth`/`innerHeight` at creation time). -/
structure Canvas where
  width : ℚ
  height : ℚ
deriving DecidableEq, Repr

/-- The mutable state of one `useConfetti` hook instance: `canvasRef`,
`particlesRef`, the `isActive` React state, and whether a
`requestAnimationFrame` callback is currently pending (`rafRef` holding a
live request). -/
structure DriverState where
  canvas : Option Canvas
  pool : List Particle
  isActive : Bool
  scheduled : Bool
deriving DecidableEq, Repr

/-- The batch of particles built by the `fire` loop (lines 234-257):
`particleCount` particles spawned at the scaled origin, one random record
per iteration. -/
def spawnBatch (opts : ConfettiOptions) (c : Canvas) (rands : ℕ → SpawnRand) :
    List Particle :=
  (List.range opts.particleCount).map fun i =>
    spawnParticle opts (c.width * opts.originX) (c.height * opts.originY) (rands i)

/-- The `fire` callback (lines 207-265) as a state transformer.
`reducedMotion` is the value of
`window.matchMedia('(prefers-reduced-motion: reduce)').matches`, an
environment input.  Control flow follows the source: return unchanged when
the canvas ref is null (line 220, before the reduced-motion check); return
unchanged when reduced motion is active (lines 224-227); otherwise append
the new batch to the pool (line 259) and, when `isActive` is false, set it
and schedule an animation frame (lines 261-264). -/
def fire (reducedMotion : Bool) (opts : ConfettiOptions) (rands : ℕ → SpawnRand)
    (s : DriverState) : DriverState :=
  match s.canvas with
  | none => s
  | some canvas =>
    if reducedMotion then s
    else
      let withNew := { s with pool := s.pool ++ spawnBatch opts canvas rands }
      if !withNew.isActive then
        { withNew with isActive := true, scheduled := true }
      else
        withNew

/-- The `animate` callback (lines 134-204) as a state transformer, run when
its scheduled frame fires (so the pending request is consumed).  When the
canvas ref is null it returns at once (line 135) with the request consumed;
otherwise it filters the pool through the per-particle update and removal
test and, if particles remain, schedules the next frame (lines 199-200),
else marks the driver idle (line 202). -/
def animate (s : DriverState) : DriverState :=
  match s.canvas with
  | none => { s with scheduled := false }
  | some canvas =>
    let pool := stepPool canvas.height s.pool
    if pool.length > 0 then
      { s with pool := pool, scheduled := true }
    else
      { s with pool := pool, isActive := false, scheduled := false }

/-- The state of a hook instance right after mount: canvas created by the
effect (lines 99-121), empty pool, idle driver. -/
def init (c : Canvas) : DriverState :=
  { canvas := some c, pool := [], isActive := false, scheduled := false }

/-- The transitions available to a mounted hook instance: any `fire` call
(with any environment and random draws), or the scheduled `animate` callback
firing — the latter only when a frame request is actually pending. -/
inductive Step : DriverState → DriverState → Prop
  | fire (rm : Bool) (opts : ConfettiOptions) (rands : ℕ → SpawnRand)
      (s : DriverState) : Step s (fire rm opts rands s)
  | animate (s : DriverState) (h : s.scheduled = true) : Step s (animate s)

/-- States reachable by a mounted hook instance from its post-mount state. -/
inductive Reachable (c : Canvas) : DriverState → Prop
  | refl : Reachable c (init c)
  | step {s t : DriverState} : Reachable c s → Step s t → Reachable c t

/-- The driver invariant: the canvas stays the one created at mount, a
non-empty pool always has a pending frame request, and `isActive` tracks
exactly whether a request is pending. -/
def Inv (c : Canvas) (s : DriverState) : Prop :=
  s.canvas = some c ∧ (s.pool ≠ [] → s.scheduled = true) ∧ s.isActive = s.scheduled

/-- The mount effect of `useConfetti` (lines 99-121), restricted to the
canvas bookkeeping: `body` is the list of overlay canvas elements attached
to `document.body` (identified by ids), `canvasRef` the instance's ref.  A
canvas is created and appended only when the ref is still null. -/
def runMountEffect (canvasRef : Option ℕ) (body : List ℕ) (fresh : ℕ) :
    Option ℕ × List ℕ :=
  match canvasRef with
  | some c => (some c, body)
  | none => (some fresh, body ++ [fresh])

/-- The effect's cleanup (lines 123-130), restricted to the canvas
bookkeeping: the instance's canvas is removed from `document.body` when it
is still attached. -/
def unmountCleanup (canvasRef : Option ℕ) (body : List ℕ) : List ℕ :=
  match canvasRef with
  | some c => if c ∈ body then body.erase c else body
  | none => body

/-- A concrete random record (all oracle draws zero, scale 1). -/
def r0 : SpawnRand := {}

/-- A concrete 800×600 canvas. -/
def c0 : Canvas := { width := 800, height := 600 }

/-- The alpha/life relation maintained by the driver: alpha never falls
below the linear fade bound `max 0 (1 - life / maxLife)`. -/
def alphaInv (p : Particle) : Prop :=
  max 0 (1 - p.life / p.maxLife) ≤ p.alpha

/-- A particle as spawned by `fire` with `duration = 16.67` (so
`maxLife = 1`), dropped from rest at the top of a 1000-pixel-high canvas:
the concrete input on which the removal-at-`maxLife` claim fails. -/
def p_C1 : Particle :=
  spawnParticle { duration := 1667/100 } 0 0 r0

/-- A particle spawned by `fire` with `iridescent := false` (all other
options at their defaults) at the centre of the 800×600 canvas. -/
def p_C2 : Particle :=
  spawnParticle { iridescent := false } 400 300 r0

/-- A particle mid-flight with the default `maxLife` (duration 4000 ms),
used as the concrete input of witnesses. -/
def p_w : Particle :=
  spawnParticle {} 400 300 r0

/-- The state of a mounted instance right after one
`fire({ particleCount: 1 })` call with reduced motion off. -/
def s1 : DriverState :=
  fire false { particleCount := 1 } (fun _ => r0) (init c0)

end Confetti

namespace Confetti

/-! ## Supporting lemmas -/

theorem stepParticle_life (p : Particle) : (stepParticle p).life = p.life + 1 := by
  unfold stepParticle
  split <;> rfl

theorem stepParticle_maxLife (p : Particle) : (stepParticle p).maxLife = p.maxLife := by
  unfold stepParticle
  split <;> rfl

theorem stepParticle_saturation (p : Particle) :
    (stepParticle p).saturation = p.saturation := by
  unfold stepParticle
  split <;> rfl

theorem stepParticle_lightness (p : Particle) :
    (stepParticle p).lightness = p.lightness := by
  unfold stepParticle
  split <;> rfl

theorem fire_canvas (rm : Bool) (opts : ConfettiOptions) (rands : ℕ → SpawnRand)
    (s : DriverState) : (fire rm opts rands s).canvas = s.canvas := by
  rcases s with ⟨cv, pool, act, sch⟩
  cases cv <;> cases rm <;> cases act <;> rfl

theorem spawnBatch_length (opts : ConfettiOptions) (c : Canvas)
    (rands : ℕ → SpawnRand) : (spawnBatch opts c rands).length = opts.particleCount := by
  simp [spawnBatch]

/-! ## The claims -/

/-- C5: for every options value and every state, when the reduced-motion
preference is active `fire` is a no-op: the state — pool, activity flag and
pending frame request included — is unchanged, whatever the requested
configuration.  The accessibility override takes precedence over every fire
request. -/
theorem confetti_C5 (opts : ConfettiOptions) (rands : ℕ → SpawnRand)
    (s : DriverState) : fire true opts rands s = s := by
  unfold fire
  rcases s with ⟨cv, pool, act, sch⟩
  cases cv <;> simp

/-- C10: when the hook's canvas ref is still null, `fire` returns
immediately as a no-op for every options value — pool unchanged, no frame
callback scheduled — and the reduced-motion preference is not consulted: the
result does not depend on the reduced-motion flag (nor on anything else in
the request). -/
theorem confetti_C10 (rm rm' : Bool) (opts opts' : ConfettiOptions)
    (rands rands' : ℕ → SpawnRand) (s : DriverState) :
    fire rm opts rands { s with canvas := none } = { s with canvas := none } ∧
    fire rm opts rands { s with canvas := none } =
      fire rm' opts' rands' { s with canvas := none } := by
  constructor <;> rfl

/-- C8: each driver step updates every particle in source order — vertical
velocity grows by the hard-coded gravity 3/10 = 0.3, `x` grows by `vx`, `y`
grows by the already-updated `vy`, rotation grows by `rotationSpeed`, and
`life` grows by 1 — and the `gravity` value supplied in the options is
ignored: `fire` produces the same state whatever it is. -/
theorem confetti_C8 (p : Particle) (rm : Bool) (opts : ConfettiOptions)
    (g g' : ℚ) (rands : ℕ → SpawnRand) (s : DriverState) :
    (stepParticle p).vy = p.vy + 3/10 ∧
    (stepParticle p).x = p.x + p.vx ∧
    (stepParticle p).y = p.y + (p.vy + 3/10) ∧
    (stepParticle p).rotation = p.rotation + p.rotationSpeed ∧
    (stepParticle p).life = p.life + 1 ∧
    fire rm { opts with gravity := g } rands s =
      fire rm { opts with gravity := g' } rands s := by
  refine ⟨?_, ?_, ?_, ?_, ?_, ?_⟩
  · unfold stepParticle; split <;> rfl
  · unfold stepParticle; split <;> rfl
  · unfold stepParticle; split <;> rfl
  · unfold stepParticle; split <;> rfl
  · unfold stepParticle; split <;> rfl
  · rfl

/-- C4: with the canvas created, a `fire` call with reduced motion off
appends exactly its batch of `particleCount` particles to the pool (so the
pool grows by exactly `n`), while with reduced motion on it grows by 0; and
two `fire({ particleCount: 5 })` calls in a row from the mounted idle state
leave the pool at size 10, the second batch appended after the first. -/
theorem confetti_C4 (opts : ConfettiOptions) (rands r1 r2 : ℕ → SpawnRand)
    (s : DriverState) (c : Canvas) :
    (fire false opts rands { s with canvas := some c }).pool =
      s.pool ++ spawnBatch opts c rands ∧
    (fire false opts rands { s with canvas := some c }).pool.length =
      s.pool.length + opts.particleCount ∧
    (fire true opts rands { s with canvas := some c }).pool = s.pool ∧
    (fire false { particleCount := 5 } r2
        (fire false { particleCount := 5 } r1 (init c))).pool =
      spawnBatch { particleCount := 5 } c r1 ++ spawnBatch { particleCount := 5 } c r2 ∧
    (fire false { particleCount := 5 } r2
        (fire false { particleCount := 5 } r1 (init c))).pool.length = 10 := by
  have hpool : (fire false opts rands { s with canvas := some c }).pool =
      s.pool ++ spawnBatch opts c rands := by
    rcases s with ⟨cv, pool, act, sch⟩
    cases act <;> rfl
  refine ⟨hpool, ?_, rfl, ?_, ?_⟩
  · rw [hpool]
    simp [spawnBatch]
  · rfl
  · show (List.nil ++ spawnBatch { particleCount := 5 } c r1 ++
      spawnBatch { particleCount := 5 } c r2).length = 10
    simp [spawnBatch]

/-- C7 counterexample: with the default duration 4000 ms, the `maxLife` of a
spawned particle is `4000 / 16.67 = 400000/1667`, a rational whose reduced
denominator is 1667 — not an integer, because `fire` performs no truncation
after the division.  This falsifies the claim's "and is an integer". -/
theorem confetti_C7_cex :
    (spawnParticle {} 400 300 r0).maxLife = 400000/1667 ∧
    ((spawnParticle {} 400 300 r0).maxLife).den = 1667 ∧
    ¬ ((spawnParticle {} 400 300 r0).maxLife).den = 1 := by
  have h : (spawnParticle {} 400 300 r0).maxLife = 400000/1667 := by
    norm_num [spawnParticle]
  refine ⟨h, ?_, ?_⟩ <;> rw [h] <;> norm_num

/-- C7 amended: each spawned particle's `maxLife` equals the configured
duration in milliseconds divided by 16.67 exactly (a fixed 60 fps frame
budget — the division inverts exactly, with no dependence on measured frame
timing and no rounding), but it is not an integer in general: with the
default 4000 ms duration it lies strictly between 239 and 240. -/
theorem confetti_C7 (opts : ConfettiOptions) (cx cy : ℚ) (r : SpawnRand) :
    (spawnParticle opts cx cy r).maxLife = opts.duration / (1667/100) ∧
    (1667/100 : ℚ) * (spawnParticle opts cx cy r).maxLife = opts.duration ∧
    (239 : ℚ) < (spawnParticle {} cx cy r).maxLife ∧
    (spawnParticle {} cx cy r).maxLife < 240 := by
  refine ⟨rfl, ?_, ?_, ?_⟩
  · show (1667/100 : ℚ) * (opts.duration / (1667/100)) = opts.duration
    rw [mul_div_cancel₀]
    norm_num
  · show (239 : ℚ) < ({} : ConfettiOptions).duration / (1667/100)
    norm_num [ConfettiOptions.duration]
  · show ({} : ConfettiOptions).duration / (1667/100) < (240 : ℚ)
    norm_num [ConfettiOptions.duration]

/-- C2 counterexample: a particle spawned by `fire` with `iridescent: false`
has hue 0 at spawn, but after one driver step its hue is 2: the driver's
`hue = (hue + 2) % 360` line runs unconditionally, for iridescent and
non-iridescent particles alike.  This falsifies "hue ... remains at its
fixed neutral spawn value" and "no per-frame hue mutation". -/
theorem confetti_C2_cex :
    p_C2.hue = 0 ∧ (stepParticle p_C2).hue = 2 ∧ (stepParticle p_C2).hue ≠ p_C2.hue := by
  have h0 : p_C2.hue = 0 := rfl
  have h : (stepParticle p_C2).hue = 2 := by
    norm_num [stepParticle, p_C2, spawnParticle, jsMod, r0]
  refine ⟨h0, h, ?_⟩
  rw [h, h0]
  norm_num

/-- C2 amended: with `iridescent: false` every spawned particle starts at
the neutral colour (hue 0, saturation 0, lightness 50), and the driver never
changes saturation or lightness — so the rendered colour stays neutral grey —
but the driver does mutate hue on every particle while `life < maxLife`,
advancing it by 2 modulo 360 each frame regardless of the iridescent flag
(the particle record does not remember the flag). -/
theorem confetti_C2 (opts : ConfettiOptions) (cx cy : ℚ) (r : SpawnRand)
    (p : Particle) :
    (spawnParticle { opts with iridescent := false } cx cy r).hue = 0 ∧
    (spawnParticle { opts with iridescent := false } cx cy r).saturation = 0 ∧
    (spawnParticle { opts with iridescent := false } cx cy r).lightness = 50 ∧
    (stepParticle p).saturation = p.saturation ∧
    (stepParticle p).lightness = p.lightness ∧
    (stepParticle p).hue =
      (if p.life + 1 < p.maxLife then jsMod (p.hue + 2) 360 else p.hue) := by
  refine ⟨rfl, rfl, rfl, stepParticle_saturation p, stepParticle_lightness p, ?_⟩
  unfold stepParticle
  split <;> simp_all

/-- C1 failing input: the particle `p_C1` (spawned with `duration = 16.67`,
so `maxLife = 1`, dropped from rest well inside a 1000-pixel-high canvas).
After one driver step its `life` has incremented to `1 ≥ maxLife`, yet the
particle is still in the pool with `alpha = 1`: once `life ≥ maxLife` the
driver skips the alpha update, so alpha keeps its last strictly positive
value and the removal test (`y > height + 100` or `alpha ≤ 0`) does not
fire.  This contradicts the claim — and the code's own stated intent of
fading particles out and auto-cleaning them up after the configured
duration. -/
theorem confetti_C1_bug :
    p_C1.maxLife = 1 ∧
    (stepParticle p_C1).life = p_C1.life + 1 ∧
    p_C1.maxLife ≤ (stepParticle p_C1).life ∧
    (stepParticle p_C1).alpha = 1 ∧
    stepPool 1000 [p_C1] = [stepParticle p_C1] := by
  have hm : p_C1.maxLife = 1 := by norm_num [p_C1, spawnParticle]
  have hcond : ¬ (p_C1.life + 1 < p_C1.maxLife) := by
    rw [hm, show p_C1.life = 0 from rfl]
    norm_num
  have hstep : stepParticle p_C1 =
      { p_C1 with
        vy := p_C1.vy + 3/10
        x := p_C1.x + p_C1.vx
        y := p_C1.y + (p_C1.vy + 3/10)
        rotation := p_C1.rotation + p_C1.rotationSpeed
        life := p_C1.life + 1 } := by
    unfold stepParticle
    rw [if_neg hcond]
  refine ⟨hm, stepParticle_life p_C1, ?_, ?_, ?_⟩
  · rw [hm, stepParticle_life, show p_C1.life = 0 from rfl]
    norm_num
  · rw [hstep]
    rfl
  · unfold stepPool
    rw [List.map_singleton, List.filter_cons]
    have hkeep : (!expired 1000 (stepParticle p_C1)) = true := by
      rw [hstep]
      unfold expired
      norm_num [p_C1, spawnParticle, r0]
    rw [hkeep]
    rfl

/-- C6 counterexample: two components each calling `useConfetti` mount on
the same page; each instance's effect sees its own null ref and creates its
own canvas, so after both mounts two overlay canvases are attached to
`document.body` at once — the claimed page-wide singleton bound of one is
violated. -/
theorem confetti_C6_cex :
    ¬ ((runMountEffect none (runMountEffect none [] 0).2 1).2.length ≤ 1) := by
  decide

/-- C6 amended: the singleton holds per hook instance, not per page: an
instance whose ref already holds a canvas creates nothing on a re-run of the
effect, a first run creates exactly one canvas and stores it in the ref,
`fire` never creates or replaces a canvas (it reuses the instance's
existing surface), and the unmount cleanup removes the instance's canvas
from the page.  A page with several mounted `useConfetti` instances holds
one canvas per instance. -/
theorem confetti_C6 (c fresh : ℕ) (body : List ℕ) (rm : Bool)
    (opts : ConfettiOptions) (rands : ℕ → SpawnRand) (s : DriverState) :
    runMountEffect (some c) body fresh = (some c, body) ∧
    (runMountEffect none body fresh).2.length = body.length + 1 ∧
    (runMountEffect none body fresh).1 = some fresh ∧
    (fire rm opts rands s).canvas = s.canvas ∧
    unmountCleanup (some c) [c] = [] := by
  refine ⟨rfl, ?_, rfl, fire_canvas rm opts rands s, ?_⟩
  · simp [runMountEffect]
  · simp [unmountCleanup]

theorem fade_bound_mono (p : Particle) (hm : 0 < p.maxLife) :
    max 0 (1 - (p.life + 1) / p.maxLife) ≤ max 0 (1 - p.life / p.maxLife) := by
  apply max_le_max le_rfl
  have h : p.life / p.maxLife ≤ (p.life + 1) / p.maxLife := by
    gcongr
    linarith
  linarith

theorem stepParticle_alpha_le (p : Particle) (hm : 0 < p.maxLife)
    (hI : alphaInv p) : (stepParticle p).alpha ≤ p.alpha := by
  unfold stepParticle
  split
  · show max 0 (1 - (p.life + 1) / p.maxLife) ≤ p.alpha
    exact le_trans (fade_bound_mono p hm) hI
  · show p.alpha ≤ p.alpha
    exact le_rfl

theorem stepParticle_alphaInv (p : Particle) (hm : 0 < p.maxLife)
    (hI : alphaInv p) : alphaInv (stepParticle p) := by
  unfold alphaInv stepParticle
  split
  · show max 0 (1 - (p.life + 1) / p.maxLife) ≤ max 0 (1 - (p.life + 1) / p.maxLife)
    exact le_rfl
  · show max 0 (1 - (p.life + 1) / p.maxLife) ≤ p.alpha
    exact le_trans (fade_bound_mono p hm) hI

theorem iterate_alphaInv (p : Particle) (hm : 0 < p.maxLife) (hI : alphaInv p)
    (n : ℕ) :
    alphaInv (stepParticle^[n] p) ∧ (stepParticle^[n] p).maxLife = p.maxLife := by
  induction n with
  | zero => exact ⟨hI, rfl⟩
  | succ k ih =>
    rw [Function.iterate_succ_apply']
    refine ⟨stepParticle_alphaInv _ ?_ ih.1, ?_⟩
    · rw [ih.2]
      exact hm
    · rw [stepParticle_maxLife, ih.2]

/-- C9: along any trajectory of driver steps from a particle satisfying the
spawn-time fade relation (`alpha` at least the linear bound
`max 0 (1 - life / maxLife)`, which holds with equality at spawn where
`alpha = 1` and `life = 0`), alpha is non-increasing from frame to frame,
and it can be `≤ 0` only once `life` has reached `maxLife`. -/
theorem confetti_C9 (p : Particle) (n : ℕ) (hm : 0 < p.maxLife)
    (hI : alphaInv p) :
    (stepParticle^[n+1] p).alpha ≤ (stepParticle^[n] p).alpha ∧
    ((stepParticle^[n] p).alpha ≤ 0 → p.maxLife ≤ (stepParticle^[n] p).life) := by
  obtain ⟨hInv, hmax⟩ := iterate_alphaInv p hm hI n
  constructor
  · rw [Function.iterate_succ_apply']
    refine stepParticle_alpha_le _ ?_ hInv
    rw [hmax]
    exact hm
  · intro h0
    have hb : max 0 (1 - (stepParticle^[n] p).life / (stepParticle^[n] p).maxLife) ≤
        (stepParticle^[n] p).alpha := hInv
    have hx : 1 - (stepParticle^[n] p).life / (stepParticle^[n] p).maxLife ≤ 0 :=
      le_trans (le_max_right 0 _) (le_trans hb h0)
    rw [hmax] at hx
    have h1 : (1 : ℚ) ≤ (stepParticle^[n] p).life / p.maxLife := by linarith
    have h2 := (le_div_iff₀ hm).mp h1
    linarith

/-- C9 witness: the concrete particle `p_w` (default spawn, `alpha = 1`,
`life = 0`, `maxLife = 400000/1667`) satisfies the hypotheses, and the first
driver step does not increase its alpha. -/
theorem confetti_C9_witness :
    (0 < p_w.maxLife ∧ alphaInv p_w) ∧
    ((stepParticle^[0+1] p_w).alpha ≤ (stepParticle^[0] p_w).alpha ∧
      ((stepParticle^[0] p_w).alpha ≤ 0 → p_w.maxLife ≤ (stepParticle^[0] p_w).life)) := by
  have hm : 0 < p_w.maxLife := by norm_num [p_w, spawnParticle]
  have hI : alphaInv p_w := by
    unfold alphaInv
    rw [max_le_iff, show p_w.life = (0:ℚ) from rfl, show p_w.alpha = (1:ℚ) from rfl]
    norm_num
  exact ⟨⟨hm, hI⟩, confetti_C9 p_w 0 hm hI⟩

theorem reachable_inv (c : Canvas) (s : DriverState) (h : Reachable c s) :
    Inv c s := by
  induction h with
  | refl =>
    refine ⟨rfl, ?_, rfl⟩
    intro hne
    exact absurd rfl hne
  | step hr hst ih =>
    obtain ⟨hc, hpool, hact⟩ := ih
    rename_i s t
    cases hst with
    | fire rm opts rands s' =>
      rcases s with ⟨cv, pool, act, sch⟩
      obtain rfl : cv = some c := hc
      cases rm
      · cases act
        · exact ⟨rfl, fun _ => rfl, rfl⟩
        · have hs : sch = true := hact.symm
          exact ⟨rfl, fun _ => hs, hact⟩
      · exact ⟨rfl, hpool, hact⟩
    | animate s' hsch =>
      rcases s with ⟨cv, pool, act, sch⟩
      obtain rfl : cv = some c := hc
      have hs : sch = true := hsch
      have ha : act = true := hact.trans hs
      subst hs ha
      by_cases hp : (stepPool c.height pool).length > 0
      · have he : animate ⟨some c, pool, true, true⟩ =
            { canvas := some c, pool := stepPool c.height pool,
              isActive := true, scheduled := true } := by
          unfold animate
          simp [hp]
        rw [he]
        exact ⟨rfl, fun _ => rfl, rfl⟩
      · have he : animate ⟨some c, pool, true, true⟩ =
            { canvas := some c, pool := stepPool c.height pool,
              isActive := false, scheduled := false } := by
          unfold animate
          simp [hp]
        rw [he]
        have hempty : stepPool c.height pool = [] := by
          rcases hq : stepPool c.height pool with _ | ⟨a, l⟩
          · rfl
          · rw [hq] at hp
            simp at hp
        exact ⟨rfl, fun hne => absurd hempty hne, rfl⟩

/-- C3: in every state reachable by a mounted hook instance, a frame
callback is pending whenever the pool is non-empty; from a state with no
pending callback the only possible transitions are `fire` calls (no
per-frame work happens until the next `fire`); and the driver stops exactly
when the pool becomes empty: the `animate` pass schedules a next frame
precisely when particles remain, and marks the driver idle with no pending
request when none do. -/
theorem confetti_C3 (c : Canvas) (s : DriverState) (h : Reachable c s) :
    (s.pool ≠ [] → s.scheduled = true) ∧
    (s.scheduled = false → ∀ t, Step s t →
      ∃ rm opts rands, t = fire rm opts rands s) ∧
    ((animate s).pool = [] → (animate s).scheduled = false ∧ (animate s).isActive = false) ∧
    ((animate s).pool ≠ [] → (animate s).scheduled = true) := by
  obtain ⟨hc, hpool, hact⟩ := reachable_inv c s h
  refine ⟨hpool, ?_, ?_, ?_⟩
  · intro hns t hst
    cases hst with
    | fire rm opts rands s => exact ⟨rm, opts, rands, rfl⟩
    | animate s hsch => rw [hsch] at hns; cases hns
  · intro hemp
    rcases s with ⟨cv, pool, act, sch⟩
    obtain rfl : cv = some c := hc
    by_cases hp : (stepPool c.height pool).length > 0
    · have he : animate ⟨some c, pool, act, sch⟩ =
          { canvas := some c, pool := stepPool c.height pool,
            isActive := act, scheduled := true } := by
        unfold animate
        simp [hp]
      rw [he] at hemp
      have hempty : stepPool c.height pool = [] := hemp
      rw [hempty] at hp
      simp at hp
    · have he : animate ⟨some c, pool, act, sch⟩ =
          { canvas := some c, pool := stepPool c.height pool,
            isActive := false, scheduled := false } := by
        unfold animate
        simp [hp]
      rw [he]
      exact ⟨rfl, rfl⟩
  · intro hne
    rcases s with ⟨cv, pool, act, sch⟩
    obtain rfl : cv = some c := hc
    by_cases hp : (stepPool c.height pool).length > 0
    · have he : animate ⟨some c, pool, act, sch⟩ =
          { canvas := some c, pool := stepPool c.height pool,
            isActive := act, scheduled := true } := by
        unfold animate
        simp [hp]
      rw [he]
    · have he : animate ⟨some c, pool, act, sch⟩ =
          { canvas := some c, pool := stepPool c.height pool,
            isActive := false, scheduled := false } := by
        unfold animate
        simp [hp]
      rw [he] at hne
      have hempty : stepPool c.height pool = [] := by
        rcases hq : stepPool c.height pool with _ | ⟨a, l⟩
        · rfl
        · rw [hq] at hp
          simp at hp
      exact absurd hempty hne

/-- C3 witness: the state `s1` reached by one `fire({ particleCount: 1 })`
call from the mounted idle state is reachable, and — its pool being
non-empty — it has a pending frame request. -/
theorem confetti_C3_witness :
    Reachable c0 s1 ∧ (s1.pool ≠ [] → s1.scheduled = true) := by
  have hr : Reachable c0 s1 :=
    Reachable.step Reachable.refl
      (Step.fire false { particleCount := 1 } (fun _ => r0) (init c0))
  exact ⟨hr, (confetti_C3 c0 s1 hr).1⟩

end Confetti
